import Mathlib

/-!
Shallow embedding of the loan service core: the lifecycle state machine and the
investment ledger implemented in internal/service/loan_service.go on top of the
persistence port of internal/repository/loan_repository.go.

Modelling choices:
- Monetary values (float64 in the source) are modelled as rationals.
- The persistent store is a snapshot of the five tables, one list per table,
  in insertion order; GORM First/Find queries become find? and filter over
  those lists, and SUM(amount) becomes a list sum.
- uuid.New() is modelled by a counter carried in the store (genId), since the
  only property the code relies on is that fresh identifiers can be minted.
- Timestamps are dropped: no operation of the core branches on them.
- Go errors are mapped to the error taxonomy the service messages encode
  (the InvalidState and OverFunding messages interpolate their diagnostic
  values, so those are carried as constructor arguments).
- InvestInLoan is written as a read/validate phase (everything up to and
  including GetTotalInvested) followed by a write phase (the over-funding
  guard and the writes); their sequential composition is exactly the Go
  function body, and running the phases of two calls interleaved models two
  goroutines hitting the same unsynchronized service.
- ApproveLoan takes an injected outcome for each of its two persistence
  writes, modelling storage failures the Go code only propagates.
- InvestInLoan also returns the list of repository methods it invoked, in
  order, so that claims about operations not touching storage are statable.
-/

/-- Lifecycle state of a loan, from internal/domain/loan.go. -/
inductive LoanState where
  | proposed
  | approved
  | invested
  | disbursed
deriving DecidableEq

/-- Loan row, from internal/domain/loan.go (timestamps dropped, nested
relations live in their own tables and are assembled by getLoanByID). -/
structure Loan where
  id : String
  borrowerID : String
  principal : ℚ
  rate : ℚ
  roi : ℚ
  agreementLetterURL : String
  state : LoanState
deriving DecidableEq

/-- Approval row, from internal/domain/approval.go (dates dropped). -/
structure Approval where
  id : String
  loanID : String
  pictureURL : String
  employeeID : String
deriving DecidableEq

/-- Investor row, from internal/domain/investor.go. -/
structure Investor where
  id : String
  name : String
  email : String
deriving DecidableEq

/-- Investment row, from internal/domain/investment.go. -/
structure Investment where
  id : String
  loanID : String
  investorID : String
  amount : ℚ
deriving DecidableEq

/-- Disbursement row, from internal/domain/disbursement.go (dates dropped). -/
structure Disbursement where
  id : String
  loanID : String
  agreementURL : String
  employeeID : String
deriving DecidableEq

/-- Snapshot of the database: the five tables in insertion order, plus the
counter backing fresh identifier generation. -/
structure Store where
  loans : List Loan
  approvals : List Approval
  investors : List Investor
  investments : List Investment
  disbursements : List Disbursement
  nextId : Nat
deriving DecidableEq

/-- Fresh identifier, modelling uuid.New().String(). -/
def genId (n : Nat) : String := "uuid-" ++ Nat.repr n

/-- Error taxonomy of the service layer. Each constructor corresponds to one
error value built in loan_service.go or surfaced from the repository;
InvalidState and OverFunding carry the diagnostic data their messages
interpolate. -/
inductive Err where
  | NotFound
  | InvalidAmount
  | AlreadyFunded
  | InvalidState (current required : LoanState)
  | AlreadyApproved
  | AlreadyDisbursed
  | OverFunding (current amount principal : ℚ)
  | PersistenceFailure
deriving DecidableEq

/-- Names of the LoanRepo methods invoked by InvestInLoan, used to record
which repository calls an execution performed. -/
inductive RepoCall where
  | getLoanByID
  | getInvestorByID
  | findInvestorByEmail
  | createInvestor
  | getTotalInvested
  | createInvestment
  | updateLoan
deriving DecidableEq

/-- Loan row lookup by primary key (repository GetLoanByID, First by id). -/
def findLoan (σ : Store) (id : String) : Option Loan :=
  σ.loans.find? (fun l => l.id == id)

/-- Preload of the 1:1 Approval relation. -/
def loanApproval (σ : Store) (loanID : String) : Option Approval :=
  σ.approvals.find? (fun a => a.loanID == loanID)

/-- Preload of the N:1 Investments relation. -/
def loanInvestments (σ : Store) (loanID : String) : List Investment :=
  σ.investments.filter (fun i => i.loanID == loanID)

/-- Preload of the 1:1 Disbursement relation. -/
def loanDisbursement (σ : Store) (loanID : String) : Option Disbursement :=
  σ.disbursements.find? (fun d => d.loanID == loanID)

/-- Loan aggregate as returned by repository GetLoanByID: the loan row with
its Approval, Investments and Disbursement preloaded. -/
structure LoanAgg where
  loan : Loan
  approval : Option Approval
  investments : List Investment
  disbursement : Option Disbursement
deriving DecidableEq

/-- Repository GetLoanByID: the loan with relations preloaded, or
record-not-found. -/
def getLoanByID (σ : Store) (id : String) : Option LoanAgg :=
  (findLoan σ id).map
    (fun l => ⟨l, loanApproval σ l.id, loanInvestments σ l.id, loanDisbursement σ l.id⟩)

/-- Sum of the amounts of the investment rows of one loan. -/
def sumForLoan (rows : List Investment) (loanID : String) : ℚ :=
  ((rows.filter (fun i => i.loanID == loanID)).map (fun i => i.amount)).sum

/-- Repository GetTotalInvested: COALESCE(SUM(amount), 0) over the
investments of the given loan. -/
def getTotalInvested (σ : Store) (loanID : String) : ℚ :=
  sumForLoan σ.investments loanID

/-- Repository UpdateLoan: save the row whose primary key matches. -/
def updateLoan (σ : Store) (l : Loan) : Store :=
  { σ with loans := σ.loans.map (fun x => if x.id == l.id then l else x) }

/-- Repository FindInvestorByEmail: first investor with the given email, as a
non-error empty result when absent. -/
def findInvestorByEmail (σ : Store) (email : String) : Option Investor :=
  σ.investors.find? (fun i => i.email == email)

/-- Repository GetInvestorByID: investor by primary key, not-found otherwise. -/
def getInvestorByID (σ : Store) (id : String) : Option Investor :=
  σ.investors.find? (fun i => i.id == id)

/-- View of the state of one loan row in the store. -/
def loanState (σ : Store) (id : String) : Option LoanState :=
  (findLoan σ id).map Loan.state

/-- Outcomes injected for the two persistence writes issued by ApproveLoan;
the Go code only propagates a failed write, it never compensates. -/
structure FailSpec where
  createApprovalOk : Bool
  updateLoanOk : Bool
deriving DecidableEq

/-- Schedule in which every persistence write succeeds. -/
def FailSpec.allOk : FailSpec := ⟨true, true⟩

/-- ApproveLoan from loan_service.go, with the outcome of each persistence
write injected through fs. Checks, in source order: loan exists, state is
proposed, no approval preloaded; then CreateApproval and UpdateLoan. -/
def approveLoanF (fs : FailSpec) (σ : Store) (loanID pictureURL employeeID : String) :
    Except Err LoanAgg × Store :=
  match getLoanByID σ loanID with
  | none => (.error .NotFound, σ)
  | some agg =>
    if agg.loan.state ≠ .proposed then
      (.error (.InvalidState agg.loan.state .proposed), σ)
    else if agg.approval.isSome then
      (.error .AlreadyApproved, σ)
    else
      let appr : Approval := ⟨genId σ.nextId, agg.loan.id, pictureURL, employeeID⟩
      let loan1 : Loan := { agg.loan with state := .approved }
      if fs.createApprovalOk then
        let σ1 : Store := { σ with approvals := σ.approvals ++ [appr], nextId := σ.nextId + 1 }
        if fs.updateLoanOk then
          (.ok { agg with loan := loan1, approval := some appr }, updateLoan σ1 loan1)
        else (.error .PersistenceFailure, σ1)
      else (.error .PersistenceFailure, σ)

/-- ApproveLoan under a storage that never fails. -/
def approveLoan (σ : Store) (loanID pictureURL employeeID : String) :
    Except Err LoanAgg × Store :=
  approveLoanF FailSpec.allOk σ loanID pictureURL employeeID

/-- Result of the investor-resolution block: the resolved investor, the store
(possibly extended by a freshly created investor) and the repository calls
made. -/
structure ResolveOut where
  result : Except Err Investor
  store : Store
  log : List RepoCall

/-- Investor-resolution block of InvestInLoan (loan_service.go lines 134 to
163): a supplied investor id must exist; otherwise a non-empty email is looked
up and an existing match reused; absent both, a fresh Investor is created. -/
def resolveInvestor (σ : Store) (investorID investorName investorEmail : String) :
    ResolveOut :=
  if investorID ≠ "" then
    match getInvestorByID σ investorID with
    | some inv => ⟨.ok inv, σ, [.getInvestorByID]⟩
    | none => ⟨.error .NotFound, σ, [.getInvestorByID]⟩
  else
    let found : Option Investor :=
      if investorEmail ≠ "" then findInvestorByEmail σ investorEmail else none
    match found with
    | some inv => ⟨.ok inv, σ, [.findInvestorByEmail]⟩
    | none =>
      let inv : Investor := ⟨genId σ.nextId, investorName, investorEmail⟩
      ⟨.ok inv,
        { σ with investors := σ.investors ++ [inv], nextId := σ.nextId + 1 },
        (if investorEmail ≠ "" then [.findInvestorByEmail] else []) ++ [.createInvestor]⟩

/-- Arguments of one InvestInLoan call. -/
structure InvestCall where
  loanID : String
  investorID : String
  investorName : String
  investorEmail : String
  amount : ℚ
deriving DecidableEq

/-- Result of the read/validate phase of InvestInLoan: the loaded aggregate,
the resolved investor and the total read by GetTotalInvested. -/
structure PhaseAOut where
  result : Except Err (LoanAgg × Investor × ℚ)
  store : Store
  log : List RepoCall

/-- Outcome of a full InvestInLoan call. -/
structure InvestOut where
  result : Except Err LoanAgg
  store : Store
  log : List RepoCall

/-- Read/validate phase of InvestInLoan (loan_service.go lines 117 to 168):
amount positivity, loan lookup, the funded and state checks, investor
resolution, and the GetTotalInvested read. -/
def investPhaseA (σ : Store) (c : InvestCall) : PhaseAOut :=
  if c.amount ≤ 0 then ⟨.error .InvalidAmount, σ, []⟩
  else
    match getLoanByID σ c.loanID with
    | none => ⟨.error .NotFound, σ, [.getLoanByID]⟩
    | some agg =>
      if agg.loan.state = .invested then ⟨.error .AlreadyFunded, σ, [.getLoanByID]⟩
      else if agg.loan.state ≠ .approved then
        ⟨.error (.InvalidState agg.loan.state .approved), σ, [.getLoanByID]⟩
      else
        let r := resolveInvestor σ c.investorID c.investorName c.investorEmail
        match r.result with
        | .error e => ⟨.error e, r.store, .getLoanByID :: r.log⟩
        | .ok inv =>
          ⟨.ok (agg, inv, getTotalInvested r.store agg.loan.id), r.store,
            .getLoanByID :: r.log ++ [.getTotalInvested]⟩

/-- Write phase of InvestInLoan (loan_service.go lines 169 to 199): the
over-funding guard compares the total T read in phase A, then the investment
row is written and, exactly when the new total equals the principal, the loan
is promoted to invested. -/
def investPhaseB (σ : Store) (c : InvestCall) (agg : LoanAgg) (inv : Investor) (T : ℚ) :
    InvestOut :=
  if T + c.amount > agg.loan.principal then
    ⟨.error (.OverFunding T c.amount agg.loan.principal), σ, []⟩
  else
    let row : Investment := ⟨genId σ.nextId, agg.loan.id, inv.id, c.amount⟩
    let σ1 : Store := { σ with investments := σ.investments ++ [row], nextId := σ.nextId + 1 }
    if T + c.amount = agg.loan.principal then
      let loan1 : Loan := { agg.loan with state := .invested }
      ⟨.ok { agg with loan := loan1, investments := agg.investments ++ [row] },
        updateLoan σ1 loan1, [.createInvestment, .updateLoan]⟩
    else
      ⟨.ok { agg with investments := agg.investments ++ [row] }, σ1, [.createInvestment]⟩

/-- InvestInLoan from loan_service.go: the read/validate phase immediately
followed by the write phase, with no interleaved writer. -/
def investInLoan (σ : Store) (c : InvestCall) : InvestOut :=
  let a := investPhaseA σ c
  match a.result with
  | .error e => ⟨.error e, a.store, a.log⟩
  | .ok (agg, inv, T) =>
    let b := investPhaseB a.store c agg inv T
    ⟨b.result, b.store, a.log ++ b.log⟩

/-- DisburseLoan from loan_service.go: loan lookup, state must be invested,
no disbursement preloaded; then CreateDisbursement and UpdateLoan. -/
def disburseLoan (σ : Store) (loanID agreementURL employeeID : String) :
    Except Err LoanAgg × Store :=
  match getLoanByID σ loanID with
  | none => (.error .NotFound, σ)
  | some agg =>
    if agg.loan.state ≠ .invested then
      (.error (.InvalidState agg.loan.state .invested), σ)
    else if agg.disbursement.isSome then
      (.error .AlreadyDisbursed, σ)
    else
      let d : Disbursement := ⟨genId σ.nextId, agg.loan.id, agreementURL, employeeID⟩
      let loan1 : Loan := { agg.loan with state := .disbursed }
      let σ1 : Store :=
        { σ with disbursements := σ.disbursements ++ [d], nextId := σ.nextId + 1 }
      (.ok { agg with loan := loan1, disbursement := some d }, updateLoan σ1 loan1)

/-- Sequential execution of a list of InvestInLoan calls. -/
def runInvests (σ : Store) (cs : List InvestCall) : Store :=
  cs.foldl (fun σ c => (investInLoan σ c).store) σ

/-- Interleaved execution of two InvestInLoan calls against the same store,
under the schedule read1, read2, write1, write2: each call is the unchanged
composition of the two phases of investInLoan, but the write phase of the
first call happens only after the read phase of the second. The service takes
no lock and opens no transaction, so this schedule is realizable by two
concurrent requests. -/
def interleavedInvest (σ : Store) (c1 c2 : InvestCall) :
    Except Err LoanAgg × Except Err LoanAgg × Store :=
  match investPhaseA σ c1 with
  | ⟨.error e1, σ1, _⟩ =>
    let o2 := investInLoan σ1 c2
    (.error e1, o2.result, o2.store)
  | ⟨.ok (agg1, i1, T1), σ1, _⟩ =>
    match investPhaseA σ1 c2 with
    | ⟨.error e2, σ2, _⟩ =>
      let o1 := investPhaseB σ2 c1 agg1 i1 T1
      (o1.result, .error e2, o1.store)
    | ⟨.ok (agg2, i2, T2), σ2, _⟩ =>
      let o1 := investPhaseB σ2 c1 agg1 i1 T1
      let o2 := investPhaseB o1.store c2 agg2 i2 T2
      (o1.result, o2.result, o2.store)

/-- Primary-key uniqueness of the loans table (UUID primary key in the
schema). -/
def LoanIdsNodup (σ : Store) : Prop := (σ.loans.map Loan.id).Nodup

/-- Ledger invariant: loan primary keys are unique and every loan has
investment total at most its principal. -/
def LedgerInv (σ : Store) : Prop :=
  LoanIdsNodup σ ∧ ∀ l ∈ σ.loans, getTotalInvested σ l.id ≤ l.principal

/-- Concrete approved loan with principal 1000, used by concrete scenarios. -/
def loan1000 : Loan := ⟨"L", "B1", 1000, 10, 8, "", .approved⟩

/-- Store holding exactly loan1000 and nothing else. -/
def store1000 : Store := ⟨[loan1000], [], [], [], [], 0⟩

/-- Invest call on loan1000 identified only by an email address. -/
def investCall (email : String) (amount : ℚ) : InvestCall :=
  ⟨"L", "", "N", email, amount⟩

/-- Concrete proposed loan used by concrete scenarios. -/
def loanP : Loan := ⟨"L", "B1", 1000, 10, 8, "", .proposed⟩

/-- Store holding exactly loanP. -/
def storeP : Store := ⟨[loanP], [], [], [], [], 0⟩

/-- Concrete invested loan used by concrete scenarios. -/
def loanI : Loan := ⟨"L", "B1", 1000, 10, 8, "", .invested⟩

/-- Store holding exactly loanI. -/
def storeI : Store := ⟨[loanI], [], [], [], [], 0⟩

/-- Concrete disbursed loan used by concrete scenarios. -/
def loanD : Loan := ⟨"L", "B1", 1000, 10, 8, "", .disbursed⟩

/-- Store holding exactly loanD. -/
def storeD : Store := ⟨[loanD], [], [], [], [], 0⟩

/-- Loan row with its state replaced by invested. -/
def promoteLoan (l : Loan) : Loan := { l with state := .invested }

/-- Investment row as built by InvestInLoan for a resolved investor. -/
def mkRow (σ : Store) (agg : LoanAgg) (inv : Investor) (a : ℚ) : Investment :=
  ⟨genId σ.nextId, agg.loan.id, inv.id, a⟩

/-- Store after CreateInvestment appends one row. -/
def insertRow (σ : Store) (row : Investment) : Store :=
  { σ with investments := σ.investments ++ [row], nextId := σ.nextId + 1 }

/-- Store after CreateInvestor appends one investor. -/
def insertInvestor (σ : Store) (inv : Investor) : Store :=
  { σ with investors := σ.investors ++ [inv], nextId := σ.nextId + 1 }

/-- Loan row with its state replaced by approved. -/
def approveRow (l : Loan) : Loan := { l with state := .approved }

/-- Loan row with its state replaced by disbursed. -/
def disburseRow (l : Loan) : Loan := { l with state := .disbursed }

/-- Approval record as built by ApproveLoan. -/
def mkApproval (σ : Store) (agg : LoanAgg) (pictureURL employeeID : String) : Approval :=
  ⟨genId σ.nextId, agg.loan.id, pictureURL, employeeID⟩

/-- Store after CreateApproval appends one record. -/
def insertApproval (σ : Store) (a : Approval) : Store :=
  { σ with approvals := σ.approvals ++ [a], nextId := σ.nextId + 1 }

/-- Disbursement record as built by DisburseLoan. -/
def mkDisbursement (σ : Store) (agg : LoanAgg) (agreementURL employeeID : String) : Disbursement :=
  ⟨genId σ.nextId, agg.loan.id, agreementURL, employeeID⟩

/-- Store after CreateDisbursement appends one record. -/
def insertDisbursement (σ : Store) (d : Disbursement) : Store :=
  { σ with disbursements := σ.disbursements ++ [d], nextId := σ.nextId + 1 }

/-! ### Basic facts about the repository operations -/

theorem findLoan_id {σ : Store} {id : String} {l : Loan}
    (h : findLoan σ id = some l) : l.id = id := by
  have hp := List.find?_some h
  simpa using hp

theorem findLoan_mem {σ : Store} {id : String} {l : Loan}
    (h : findLoan σ id = some l) : l ∈ σ.loans :=
  List.mem_of_find?_eq_some h

theorem getLoanByID_elim {σ : Store} {id : String} {agg : LoanAgg}
    (h : getLoanByID σ id = some agg) :
    findLoan σ id = some agg.loan ∧ agg.loan.id = id := by
  unfold getLoanByID at h
  cases hf : findLoan σ id with
  | none => rw [hf] at h; simp at h
  | some l =>
    rw [hf] at h
    simp only [Option.map, Option.some_inj] at h
    subst h
    dsimp only
    exact ⟨rfl, findLoan_id hf⟩

theorem sumForLoan_append (rows1 rows2 : List Investment) (lid : String) :
    sumForLoan (rows1 ++ rows2) lid = sumForLoan rows1 lid + sumForLoan rows2 lid := by
  simp [sumForLoan, List.filter_append]

theorem sumForLoan_single (row : Investment) (lid : String) :
    sumForLoan [row] lid = if row.loanID = lid then row.amount else 0 := by
  by_cases h : row.loanID = lid <;> simp [sumForLoan, h]

theorem updateLoan_investments (σ : Store) (l : Loan) :
    (updateLoan σ l).investments = σ.investments := rfl

theorem updateLoan_investors (σ : Store) (l : Loan) :
    (updateLoan σ l).investors = σ.investors := rfl

theorem replaceRow_id (l x : Loan) :
    (if x.id == l.id then l else x).id = x.id := by
  by_cases h : x.id == l.id
  · simp only [h, if_true]
    exact (eq_of_beq h).symm
  · simp [h]

theorem updateLoan_map_id (σ : Store) (l : Loan) :
    (updateLoan σ l).loans.map Loan.id = σ.loans.map Loan.id := by
  unfold updateLoan
  simp only [List.map_map]
  exact List.map_congr_left (fun x _ => replaceRow_id l x)

theorem findLoan_updateLoan (σ : Store) (l : Loan) (id : String) :
    findLoan (updateLoan σ l) id =
      (findLoan σ id).map (fun x => if x.id == l.id then l else x) := by
  unfold findLoan updateLoan
  have hfun : ((fun y : Loan => y.id == id) ∘ fun x : Loan => if x.id == l.id then l else x)
      = (fun x : Loan => x.id == id) := by
    funext x
    simp only [Function.comp_apply, replaceRow_id]
  rw [List.find?_map, hfun]

/-! ### Characterization of investor resolution -/

theorem resolveInvestor_frame (σ : Store) (iid n e : String) :
    (resolveInvestor σ iid n e).store.loans = σ.loans ∧
    (resolveInvestor σ iid n e).store.investments = σ.investments ∧
    (resolveInvestor σ iid n e).store.approvals = σ.approvals ∧
    (resolveInvestor σ iid n e).store.disbursements = σ.disbursements := by
  unfold resolveInvestor
  split
  · split <;> simp
  · dsimp only
    split <;> simp

theorem resolveInvestor_by_id_found {σ : Store} {iid : String} (n e : String)
    {inv : Investor} (hid : iid ≠ "") (h : getInvestorByID σ iid = some inv) :
    resolveInvestor σ iid n e = ⟨.ok inv, σ, [.getInvestorByID]⟩ := by
  simp [resolveInvestor, hid, h]

theorem resolveInvestor_by_id_missing {σ : Store} {iid : String} (n e : String)
    (hid : iid ≠ "") (h : getInvestorByID σ iid = none) :
    resolveInvestor σ iid n e = ⟨.error .NotFound, σ, [.getInvestorByID]⟩ := by
  simp [resolveInvestor, hid, h]

theorem resolveInvestor_found {σ : Store} {e : String} (n : String)
    {inv : Investor} (he : e ≠ "") (h : findInvestorByEmail σ e = some inv) :
    resolveInvestor σ "" n e = ⟨.ok inv, σ, [.findInvestorByEmail]⟩ := by
  simp [resolveInvestor, he, h]

theorem resolveInvestor_create {σ : Store} {e : String} (n : String)
    (h : e = "" ∨ findInvestorByEmail σ e = none) :
    resolveInvestor σ "" n e =
      ⟨.ok ⟨genId σ.nextId, n, e⟩,
        { σ with investors := σ.investors ++ [⟨genId σ.nextId, n, e⟩],
                 nextId := σ.nextId + 1 },
        (if e ≠ "" then [.findInvestorByEmail] else []) ++ [.createInvestor]⟩ := by
  rcases h with h | h
  · simp [resolveInvestor, h]
  · by_cases he : e = "" <;> simp [resolveInvestor, he, h]

theorem resolveInvestor_empty_id_ok (σ : Store) (n e : String) :
    ∃ inv, (resolveInvestor σ "" n e).result = .ok inv := by
  by_cases he : e = ""
  · exact ⟨_, by rw [resolveInvestor_create n (Or.inl he)]⟩
  · cases h : findInvestorByEmail σ e with
    | none => exact ⟨_, by rw [resolveInvestor_create n (Or.inr h)]⟩
    | some inv => exact ⟨inv, by rw [resolveInvestor_found n he h]⟩

/-! ### Path equations for InvestInLoan -/

theorem investPhaseA_nonpos {σ : Store} {c : InvestCall} (h : c.amount ≤ 0) :
    investPhaseA σ c = ⟨.error .InvalidAmount, σ, []⟩ := by
  simp [investPhaseA, h]

theorem investPhaseA_missing {σ : Store} {c : InvestCall} (hamt : ¬ c.amount ≤ 0)
    (hfl : getLoanByID σ c.loanID = none) :
    investPhaseA σ c = ⟨.error .NotFound, σ, [.getLoanByID]⟩ := by
  simp [investPhaseA, hamt, hfl]

theorem investPhaseA_funded {σ : Store} {c : InvestCall} {agg : LoanAgg}
    (hamt : ¬ c.amount ≤ 0) (hfl : getLoanByID σ c.loanID = some agg)
    (hst : agg.loan.state = .invested) :
    investPhaseA σ c = ⟨.error .AlreadyFunded, σ, [.getLoanByID]⟩ := by
  simp [investPhaseA, hamt, hfl, hst]

theorem investPhaseA_badstate {σ : Store} {c : InvestCall} {agg : LoanAgg}
    (hamt : ¬ c.amount ≤ 0) (hfl : getLoanByID σ c.loanID = some agg)
    (hni : agg.loan.state ≠ .invested) (hna : agg.loan.state ≠ .approved) :
    investPhaseA σ c = ⟨.error (.InvalidState agg.loan.state .approved), σ, [.getLoanByID]⟩ := by
  simp [investPhaseA, hamt, hfl, hni, hna]

theorem investPhaseA_resolve_err {σ : Store} {c : InvestCall} {agg : LoanAgg} {e : Err}
    (hamt : ¬ c.amount ≤ 0) (hfl : getLoanByID σ c.loanID = some agg)
    (hst : agg.loan.state = .approved)
    (hres : (resolveInvestor σ c.investorID c.investorName c.investorEmail).result = .error e) :
    investPhaseA σ c =
      ⟨.error e, (resolveInvestor σ c.investorID c.investorName c.investorEmail).store,
        .getLoanByID :: (resolveInvestor σ c.investorID c.investorName c.investorEmail).log⟩ := by
  simp [investPhaseA, hamt, hfl, hst, hres]

theorem investPhaseA_ok {σ : Store} {c : InvestCall} {agg : LoanAgg} {inv : Investor}
    (hamt : ¬ c.amount ≤ 0) (hfl : getLoanByID σ c.loanID = some agg)
    (hst : agg.loan.state = .approved)
    (hres : (resolveInvestor σ c.investorID c.investorName c.investorEmail).result = .ok inv) :
    investPhaseA σ c =
      ⟨.ok (agg, inv,
          getTotalInvested (resolveInvestor σ c.investorID c.investorName c.investorEmail).store
            agg.loan.id),
        (resolveInvestor σ c.investorID c.investorName c.investorEmail).store,
        .getLoanByID :: (resolveInvestor σ c.investorID c.investorName c.investorEmail).log
          ++ [.getTotalInvested]⟩ := by
  simp [investPhaseA, hamt, hfl, hst, hres]

theorem investPhaseB_overfund {σ : Store} {c : InvestCall} {agg : LoanAgg} {inv : Investor}
    {T : ℚ} (h : T + c.amount > agg.loan.principal) :
    investPhaseB σ c agg inv T =
      ⟨.error (.OverFunding T c.amount agg.loan.principal), σ, []⟩ := by
  simp [investPhaseB, h]

theorem investPhaseB_below {σ : Store} {c : InvestCall} {agg : LoanAgg} {inv : Investor}
    {T : ℚ} (hle : T + c.amount ≤ agg.loan.principal)
    (hne : T + c.amount ≠ agg.loan.principal) :
    investPhaseB σ c agg inv T =
      ⟨.ok { agg with investments := agg.investments ++ [mkRow σ agg inv c.amount] },
        insertRow σ (mkRow σ agg inv c.amount),
        [.createInvestment]⟩ := by
  have h1 : ¬ (T + c.amount > agg.loan.principal) := not_lt.mpr hle
  simp [investPhaseB, h1, hne, mkRow, insertRow]

theorem investPhaseB_full {σ : Store} {c : InvestCall} {agg : LoanAgg} {inv : Investor}
    {T : ℚ} (heq : T + c.amount = agg.loan.principal) :
    investPhaseB σ c agg inv T =
      ⟨.ok { agg with loan := promoteLoan agg.loan, investments := agg.investments ++ [mkRow σ agg inv c.amount] },
        updateLoan (insertRow σ (mkRow σ agg inv c.amount)) (promoteLoan agg.loan),
        [.createInvestment, .updateLoan]⟩ := by
  simp [investPhaseB, heq, mkRow, insertRow, promoteLoan]

theorem investInLoan_of_phaseA_error {σ : Store} {c : InvestCall} {e : Err} {σ1 : Store}
    {log : List RepoCall} (h : investPhaseA σ c = ⟨.error e, σ1, log⟩) :
    investInLoan σ c = ⟨.error e, σ1, log⟩ := by
  unfold investInLoan
  rw [h]

theorem investInLoan_of_phaseA_ok {σ : Store} {c : InvestCall} {agg : LoanAgg}
    {inv : Investor} {T : ℚ} {σ1 : Store} {log : List RepoCall}
    (h : investPhaseA σ c = ⟨.ok (agg, inv, T), σ1, log⟩) :
    investInLoan σ c =
      ⟨(investPhaseB σ1 c agg inv T).result, (investPhaseB σ1 c agg inv T).store,
        log ++ (investPhaseB σ1 c agg inv T).log⟩ := by
  unfold investInLoan
  rw [h]

/-! ### The ledger invariant is preserved by InvestInLoan -/

theorem LedgerInv_congr {σ τ : Store} (hl : τ.loans = σ.loans)
    (hi : τ.investments = σ.investments) (h : LedgerInv σ) : LedgerInv τ := by
  obtain ⟨hn, hb⟩ := h
  constructor
  · unfold LoanIdsNodup
    rw [hl]
    exact hn
  · intro l hm
    rw [hl] at hm
    have hres := hb l hm
    unfold getTotalInvested at hres ⊢
    rw [hi]
    exact hres

theorem getTotalInvested_insertRow (σ : Store) (row : Investment) (lid : String) :
    getTotalInvested (insertRow σ row) lid
      = getTotalInvested σ lid + (if row.loanID = lid then row.amount else 0) := by
  unfold getTotalInvested insertRow
  dsimp only
  rw [sumForLoan_append, sumForLoan_single]

theorem LedgerInv_insertRow {σ : Store} {l : Loan} {row : Investment}
    (hinv : LedgerInv σ) (hmem : l ∈ σ.loans) (hrow : row.loanID = l.id)
    (hfit : getTotalInvested σ l.id + row.amount ≤ l.principal) :
    LedgerInv (insertRow σ row) := by
  obtain ⟨hn, hb⟩ := hinv
  refine ⟨hn, ?_⟩
  intro m hm
  have hm' : m ∈ σ.loans := hm
  rw [getTotalInvested_insertRow]
  by_cases hid : row.loanID = m.id
  · have hml : m = l := by
      have hidml : m.id = l.id := by rw [← hid, hrow]
      exact List.inj_on_of_nodup_map hn hm' hmem hidml
    subst hml
    rw [if_pos hid]
    rw [← hrow, hid] at hfit
    exact hfit
  · rw [if_neg hid, add_zero]
    exact hb m hm'

theorem LedgerInv_updateLoan {σ : Store} {l1 : Loan} (hinv : LedgerInv σ)
    (hfit : getTotalInvested σ l1.id ≤ l1.principal) :
    LedgerInv (updateLoan σ l1) := by
  obtain ⟨hn, hb⟩ := hinv
  constructor
  · unfold LoanIdsNodup
    rw [updateLoan_map_id]
    exact hn
  · intro m hm
    have htot : getTotalInvested (updateLoan σ l1) m.id = getTotalInvested σ m.id := rfl
    rw [htot]
    unfold updateLoan at hm
    dsimp only at hm
    obtain ⟨x, hx, hfx⟩ := List.mem_map.mp hm
    by_cases hxid : x.id == l1.id
    · have hml1 : m = l1 := by rw [← hfx]; simp [hxid]
      subst hml1
      exact hfit
    · have hmx : m = x := by rw [← hfx]; simp [hxid]
      subst hmx
      exact hb _ hx

theorem investInLoan_preserves_LedgerInv (σ : Store) (c : InvestCall)
    (hinv : LedgerInv σ) : LedgerInv (investInLoan σ c).store := by
  by_cases hamt : c.amount ≤ 0
  · rw [investInLoan_of_phaseA_error (investPhaseA_nonpos hamt)]
    exact hinv
  cases hfl : getLoanByID σ c.loanID with
  | none =>
    rw [investInLoan_of_phaseA_error (investPhaseA_missing hamt hfl)]
    exact hinv
  | some agg =>
    by_cases hi : agg.loan.state = .invested
    · rw [investInLoan_of_phaseA_error (investPhaseA_funded hamt hfl hi)]
      exact hinv
    by_cases ha : agg.loan.state = .approved
    case neg =>
      rw [investInLoan_of_phaseA_error (investPhaseA_badstate hamt hfl hi ha)]
      exact hinv
    obtain ⟨hRl, hRi, -, -⟩ :=
      resolveInvestor_frame σ c.investorID c.investorName c.investorEmail
    have hinvR : LedgerInv (resolveInvestor σ c.investorID c.investorName c.investorEmail).store :=
      LedgerInv_congr hRl hRi hinv
    cases hres : (resolveInvestor σ c.investorID c.investorName c.investorEmail).result with
    | error e =>
      rw [investInLoan_of_phaseA_error (investPhaseA_resolve_err hamt hfl ha hres)]
      exact hinvR
    | ok inv =>
      rw [investInLoan_of_phaseA_ok (investPhaseA_ok hamt hfl ha hres)]
      set ρ := (resolveInvestor σ c.investorID c.investorName c.investorEmail).store with hρ
      set T := getTotalInvested ρ agg.loan.id with hT
      by_cases hover : T + c.amount > agg.loan.principal
      · rw [investPhaseB_overfund hover]
        exact hinvR
      have hle : T + c.amount ≤ agg.loan.principal := not_lt.mp hover
      have hflσ : findLoan σ c.loanID = some agg.loan := (getLoanByID_elim hfl).1
      have hmem : agg.loan ∈ ρ.loans := by
        rw [hρ, hRl]
        exact findLoan_mem hflσ
      have hrowinv : LedgerInv (insertRow ρ (mkRow ρ agg inv c.amount)) :=
        LedgerInv_insertRow hinvR hmem rfl hle
      by_cases heq : T + c.amount = agg.loan.principal
      · rw [investPhaseB_full heq]
        refine LedgerInv_updateLoan hrowinv ?_
        have hpid : (promoteLoan agg.loan).id = agg.loan.id := rfl
        have hppr : (promoteLoan agg.loan).principal = agg.loan.principal := rfl
        rw [hpid, hppr, getTotalInvested_insertRow]
        have hrowid : (mkRow ρ agg inv c.amount).loanID = agg.loan.id := rfl
        rw [if_pos hrowid]
        have hrowamt : (mkRow ρ agg inv c.amount).amount = c.amount := rfl
        rw [hrowamt]
        exact hle
      · rw [investPhaseB_below hle heq]
        exact hrowinv

theorem runInvests_preserves_LedgerInv (σ : Store) (cs : List InvestCall)
    (hinv : LedgerInv σ) : LedgerInv (runInvests σ cs) := by
  induction cs generalizing σ with
  | nil => exact hinv
  | cons c cs ih => exact ih _ (investInLoan_preserves_LedgerInv σ c hinv)

/-! ### Path equations for ApproveLoan and DisburseLoan -/

theorem approveLoanF_missing {fs : FailSpec} {σ : Store} {lid : String} (purl emp : String)
    (h : getLoanByID σ lid = none) :
    approveLoanF fs σ lid purl emp = (.error .NotFound, σ) := by
  simp [approveLoanF, h]

theorem approveLoanF_badstate {fs : FailSpec} {σ : Store} {lid : String} {agg : LoanAgg}
    (purl emp : String) (h : getLoanByID σ lid = some agg)
    (hst : agg.loan.state ≠ .proposed) :
    approveLoanF fs σ lid purl emp = (.error (.InvalidState agg.loan.state .proposed), σ) := by
  simp [approveLoanF, h, hst]

theorem approveLoanF_already {fs : FailSpec} {σ : Store} {lid : String} {agg : LoanAgg}
    (purl emp : String) (h : getLoanByID σ lid = some agg)
    (hst : agg.loan.state = .proposed) (hap : agg.approval.isSome) :
    approveLoanF fs σ lid purl emp = (.error .AlreadyApproved, σ) := by
  simp [approveLoanF, h, hst, hap]

theorem approveLoanF_createFail {σ : Store} {lid : String} {agg : LoanAgg}
    {fs : FailSpec} (purl emp : String) (h : getLoanByID σ lid = some agg)
    (hst : agg.loan.state = .proposed) (hap : agg.approval = none)
    (hfs : fs.createApprovalOk = false) :
    approveLoanF fs σ lid purl emp = (.error .PersistenceFailure, σ) := by
  simp [approveLoanF, h, hst, hap, hfs]

theorem approveLoanF_updateFail {σ : Store} {lid : String} {agg : LoanAgg}
    {fs : FailSpec} (purl emp : String) (h : getLoanByID σ lid = some agg)
    (hst : agg.loan.state = .proposed) (hap : agg.approval = none)
    (hc : fs.createApprovalOk = true) (hu : fs.updateLoanOk = false) :
    approveLoanF fs σ lid purl emp =
      (.error .PersistenceFailure, insertApproval σ (mkApproval σ agg purl emp)) := by
  simp [approveLoanF, h, hst, hap, hc, hu, insertApproval, mkApproval]

theorem approveLoanF_ok {σ : Store} {lid : String} {agg : LoanAgg}
    {fs : FailSpec} (purl emp : String) (h : getLoanByID σ lid = some agg)
    (hst : agg.loan.state = .proposed) (hap : agg.approval = none)
    (hc : fs.createApprovalOk = true) (hu : fs.updateLoanOk = true) :
    approveLoanF fs σ lid purl emp =
      (.ok { agg with loan := approveRow agg.loan, approval := some (mkApproval σ agg purl emp) },
        updateLoan (insertApproval σ (mkApproval σ agg purl emp)) (approveRow agg.loan)) := by
  simp [approveLoanF, h, hst, hap, hc, hu, insertApproval, mkApproval, approveRow]

theorem disburseLoan_missing {σ : Store} {lid : String} (aurl emp : String)
    (h : getLoanByID σ lid = none) :
    disburseLoan σ lid aurl emp = (.error .NotFound, σ) := by
  simp [disburseLoan, h]

theorem disburseLoan_badstate {σ : Store} {lid : String} {agg : LoanAgg}
    (aurl emp : String) (h : getLoanByID σ lid = some agg)
    (hst : agg.loan.state ≠ .invested) :
    disburseLoan σ lid aurl emp = (.error (.InvalidState agg.loan.state .invested), σ) := by
  simp [disburseLoan, h, hst]

theorem disburseLoan_already {σ : Store} {lid : String} {agg : LoanAgg}
    (aurl emp : String) (h : getLoanByID σ lid = some agg)
    (hst : agg.loan.state = .invested) (hd : agg.disbursement.isSome) :
    disburseLoan σ lid aurl emp = (.error .AlreadyDisbursed, σ) := by
  simp [disburseLoan, h, hst, hd]

theorem disburseLoan_ok {σ : Store} {lid : String} {agg : LoanAgg}
    (aurl emp : String) (h : getLoanByID σ lid = some agg)
    (hst : agg.loan.state = .invested) (hd : agg.disbursement = none) :
    disburseLoan σ lid aurl emp =
      (.ok { agg with loan := disburseRow agg.loan, disbursement := some (mkDisbursement σ agg aurl emp) },
        updateLoan (insertDisbursement σ (mkDisbursement σ agg aurl emp)) (disburseRow agg.loan)) := by
  simp [disburseLoan, h, hst, hd, insertDisbursement, mkDisbursement, disburseRow]

/-! ### Frame facts for store mutations -/

theorem findLoan_insertApproval (σ : Store) (a : Approval) (lid : String) :
    findLoan (insertApproval σ a) lid = findLoan σ lid := rfl

theorem findLoan_insertDisbursement (σ : Store) (d : Disbursement) (lid : String) :
    findLoan (insertDisbursement σ d) lid = findLoan σ lid := rfl

theorem findLoan_insertRow (σ : Store) (row : Investment) (lid : String) :
    findLoan (insertRow σ row) lid = findLoan σ lid := rfl

theorem updateLoan_approvals (σ : Store) (l : Loan) :
    (updateLoan σ l).approvals = σ.approvals := rfl

theorem updateLoan_disbursements (σ : Store) (l : Loan) :
    (updateLoan σ l).disbursements = σ.disbursements := rfl

theorem findLoan_updateLoan_self {σ : Store} {lid : String} {l : Loan}
    (h : findLoan σ lid = some l) (l1 : Loan) (hid : l1.id = l.id) :
    findLoan (updateLoan σ l1) lid = some l1 := by
  rw [findLoan_updateLoan, h]
  simp [hid]

/-! ### Claim C9 -/

/-- C9: for every contribution amount that is zero or negative, InvestInLoan
fails with InvalidAmount before performing any storage operation: the
repository call log of the execution is empty and the store is returned
unchanged, so no loan, investor, or investment state is read or written. -/
theorem invest_invalid_amount_c9 (σ : Store) (c : InvestCall) (h : c.amount ≤ 0) :
    investInLoan σ c = ⟨.error .InvalidAmount, σ, []⟩ :=
  investInLoan_of_phaseA_error (investPhaseA_nonpos h)

/-- Witness for C9: the zero-amount call on the concrete store. -/
theorem invest_invalid_amount_c9_witness :
    (investCall "a@x" 0).amount ≤ 0 ∧
    investInLoan store1000 (investCall "a@x" 0) = ⟨.error .InvalidAmount, store1000, []⟩ :=
  ⟨le_refl 0, invest_invalid_amount_c9 store1000 (investCall "a@x" 0) (le_refl 0)⟩

/-! ### Claim C6 -/

/-- C6: calling ApproveLoan on an existing loan whose state is not proposed,
or DisburseLoan on an existing loan whose state is not invested, always fails
with InvalidState carrying the current and the required state, and returns the
store unchanged: no state change, no new Approval row, no new Disbursement
row. -/
theorem invalid_transition_c6 (σ : Store) (lid purl emp aurl emp2 : String)
    (agg : LoanAgg) (h : getLoanByID σ lid = some agg) :
    (agg.loan.state ≠ .proposed →
      approveLoan σ lid purl emp = (.error (.InvalidState agg.loan.state .proposed), σ)) ∧
    (agg.loan.state ≠ .invested →
      disburseLoan σ lid aurl emp2 = (.error (.InvalidState agg.loan.state .invested), σ)) :=
  ⟨fun hst => approveLoanF_badstate purl emp h hst,
   fun hst => disburseLoan_badstate aurl emp2 h hst⟩

/-- Witness for C6 on the concrete disbursed loan. -/
theorem invalid_transition_c6_witness :
    getLoanByID storeD "L" = some ⟨loanD, none, [], none⟩ ∧
    approveLoan storeD "L" "p" "e" = (.error (.InvalidState .disbursed .proposed), storeD) ∧
    disburseLoan storeD "L" "a" "e" = (.error (.InvalidState .disbursed .invested), storeD) :=
  ⟨rfl,
   (invalid_transition_c6 storeD "L" "p" "e" "a" "e" ⟨loanD, none, [], none⟩ rfl).1
     (by decide),
   (invalid_transition_c6 storeD "L" "p" "e" "a" "e" ⟨loanD, none, [], none⟩ rfl).2
     (by decide)⟩

/-! ### Claim C4 -/

/-- C4 as stated is false: on a disbursed loan, which is beyond invested,
InvestInLoan with a positive non-overflowing amount fails with InvalidState
(current disbursed, required approved), not with AlreadyFunded. -/
theorem already_funded_c4_counterexample :
    (investInLoan storeD (investCall "a@x" 100)).result
        = .error (.InvalidState .disbursed .approved) ∧
    (investInLoan storeD (investCall "a@x" 100)).result ≠ .error .AlreadyFunded := by
  have hamt : ¬ (investCall "a@x" 100).amount ≤ 0 := by norm_num [investCall]
  have hfl : getLoanByID storeD (investCall "a@x" 100).loanID
      = some ⟨loanD, none, [], none⟩ := rfl
  have hni : (⟨loanD, none, [], none⟩ : LoanAgg).loan.state ≠ .invested := by decide
  have hna : (⟨loanD, none, [], none⟩ : LoanAgg).loan.state ≠ .approved := by decide
  have h := investInLoan_of_phaseA_error (investPhaseA_badstate hamt hfl hni hna)
  rw [h]
  exact ⟨rfl, by simp⟩

/-- C4 amended: with a positive contribution amount, InvestInLoan on an
invested loan fails with AlreadyFunded regardless of how small the amount is,
and changes nothing; on a disbursed loan it instead fails with InvalidState
(current disbursed, required approved), also changing nothing. -/
theorem already_funded_c4_amended (σ : Store) (c : InvestCall) (agg : LoanAgg)
    (hamt : 0 < c.amount) (hfl : getLoanByID σ c.loanID = some agg) :
    (agg.loan.state = .invested →
      investInLoan σ c = ⟨.error .AlreadyFunded, σ, [.getLoanByID]⟩) ∧
    (agg.loan.state = .disbursed →
      investInLoan σ c = ⟨.error (.InvalidState .disbursed .approved), σ, [.getLoanByID]⟩) := by
  have h0 : ¬ c.amount ≤ 0 := not_le.mpr hamt
  refine ⟨fun hst => investInLoan_of_phaseA_error (investPhaseA_funded h0 hfl hst),
    fun hst => ?_⟩
  have hni : agg.loan.state ≠ .invested := by rw [hst]; decide
  have hna : agg.loan.state ≠ .approved := by rw [hst]; decide
  have h := investInLoan_of_phaseA_error (investPhaseA_badstate h0 hfl hni hna)
  rw [hst] at h
  exact h

/-- Witness for the amended C4: a small positive contribution on the concrete
invested loan is rejected with AlreadyFunded and the store is unchanged. -/
theorem already_funded_c4_amended_witness :
    0 < (investCall "a@x" 100).amount ∧
    investInLoan storeI (investCall "a@x" 100)
        = ⟨.error .AlreadyFunded, storeI, [.getLoanByID]⟩ := by
  have hamt : 0 < (investCall "a@x" 100).amount := by norm_num [investCall]
  exact ⟨hamt,
    (already_funded_c4_amended storeI (investCall "a@x" 100) ⟨loanI, none, [], none⟩
      hamt rfl).1 rfl⟩

/-! ### Claim C10 -/

/-- C10: when InvestInLoan is called without an investor identity and with an
email matching no existing investor (or with an empty email), the new Investor
record is created and persisted before the over-funding guard runs; a call
that the guard then rejects with OverFunding leaves the newly created Investor
row in the store, while the loans and investments tables are unchanged. -/
theorem overfund_keeps_investor_c10 (σ : Store) (c : InvestCall) (agg : LoanAgg)
    (hid : c.investorID = "")
    (hnew : c.investorEmail = "" ∨ findInvestorByEmail σ c.investorEmail = none)
    (hamt : 0 < c.amount) (hfl : getLoanByID σ c.loanID = some agg)
    (hst : agg.loan.state = .approved)
    (hover : getTotalInvested σ c.loanID + c.amount > agg.loan.principal) :
    (investInLoan σ c).result
        = .error (.OverFunding (getTotalInvested σ c.loanID) c.amount agg.loan.principal) ∧
    (investInLoan σ c).store.investors
        = σ.investors ++ [⟨genId σ.nextId, c.investorName, c.investorEmail⟩] ∧
    (investInLoan σ c).store.investments = σ.investments ∧
    (investInLoan σ c).store.loans = σ.loans := by
  have h0 : ¬ c.amount ≤ 0 := not_le.mpr hamt
  have hids : agg.loan.id = c.loanID := (getLoanByID_elim hfl).2
  have hres0 : resolveInvestor σ c.investorID c.investorName c.investorEmail =
      ⟨.ok ⟨genId σ.nextId, c.investorName, c.investorEmail⟩,
        insertInvestor σ ⟨genId σ.nextId, c.investorName, c.investorEmail⟩,
        (if c.investorEmail ≠ "" then [.findInvestorByEmail] else []) ++ [.createInvestor]⟩ := by
    rw [hid]
    exact resolveInvestor_create c.investorName hnew
  have hres : (resolveInvestor σ c.investorID c.investorName c.investorEmail).result
      = .ok ⟨genId σ.nextId, c.investorName, c.investorEmail⟩ := by rw [hres0]
  have hover2 : getTotalInvested
        (insertInvestor σ ⟨genId σ.nextId, c.investorName, c.investorEmail⟩) agg.loan.id
      + c.amount > agg.loan.principal := by
    show getTotalInvested σ agg.loan.id + c.amount > agg.loan.principal
    rw [hids]
    exact hover
  rw [← hids]
  rw [investInLoan_of_phaseA_ok (investPhaseA_ok h0 hfl hst hres)]
  simp only [hres0]
  rw [investPhaseB_overfund hover2]
  exact ⟨rfl, rfl, rfl, rfl⟩

/-- Witness for C10: an overfunding first-time contribution on the concrete
approved loan leaves the created investor behind. -/
theorem overfund_keeps_investor_c10_witness :
    getTotalInvested store1000 "L" + (1500 : ℚ) > loan1000.principal ∧
    (investInLoan store1000 (investCall "a@x" 1500)).result
        = .error (.OverFunding (getTotalInvested store1000 "L") 1500 loan1000.principal) ∧
    (investInLoan store1000 (investCall "a@x" 1500)).store.investors
        = store1000.investors ++ [⟨genId store1000.nextId, "N", "a@x"⟩] ∧
    (investInLoan store1000 (investCall "a@x" 1500)).store.investments
        = store1000.investments := by
  have hamt : 0 < (investCall "a@x" 1500).amount := by norm_num [investCall]
  have hover : getTotalInvested store1000 (investCall "a@x" 1500).loanID
      + (investCall "a@x" 1500).amount
      > (⟨loan1000, none, [], none⟩ : LoanAgg).loan.principal := by
    norm_num [investCall, getTotalInvested, sumForLoan, store1000, loan1000]
  have h := overfund_keeps_investor_c10 store1000 (investCall "a@x" 1500)
    ⟨loan1000, none, [], none⟩ rfl (Or.inr rfl) hamt rfl rfl hover
  have hover' : getTotalInvested store1000 "L" + (1500 : ℚ) > loan1000.principal := hover
  exact ⟨hover', h.1, h.2.1, h.2.2.1⟩

/-! ### Claim C1 -/

/-- C1: from any store satisfying the ledger invariant, every sequence of
InvestInLoan calls preserves it, so the sum of the amounts of the Investment
rows of a loan never exceeds its principal; and a single call that reaches
the guard with confirmed total T and a contribution amount with T plus amount
above the principal fails with OverFunding and writes no Investment row, so
the total remains T. -/
theorem ledger_invariant_c1 (σ : Store) (hinv : LedgerInv σ) :
    (∀ cs, LedgerInv (runInvests σ cs)) ∧
    (∀ c agg invr, getLoanByID σ c.loanID = some agg → agg.loan.state = .approved →
      0 < c.amount →
      (resolveInvestor σ c.investorID c.investorName c.investorEmail).result = .ok invr →
      getTotalInvested σ c.loanID + c.amount > agg.loan.principal →
      (investInLoan σ c).result
          = .error (.OverFunding (getTotalInvested σ c.loanID) c.amount agg.loan.principal) ∧
      (investInLoan σ c).store.investments = σ.investments) := by
  refine ⟨fun cs => runInvests_preserves_LedgerInv σ cs hinv, ?_⟩
  intro c agg invr hfl hst hamt hres hover
  have h0 : ¬ c.amount ≤ 0 := not_le.mpr hamt
  have hids : agg.loan.id = c.loanID := (getLoanByID_elim hfl).2
  obtain ⟨hRl, hRi, -, -⟩ :=
    resolveInvestor_frame σ c.investorID c.investorName c.investorEmail
  have hTeq : getTotalInvested
        (resolveInvestor σ c.investorID c.investorName c.investorEmail).store agg.loan.id
      = getTotalInvested σ c.loanID := by
    unfold getTotalInvested
    rw [hRi, hids]
  have hover2 : getTotalInvested
        (resolveInvestor σ c.investorID c.investorName c.investorEmail).store agg.loan.id
      + c.amount > agg.loan.principal := by
    rw [hTeq]
    exact hover
  rw [investInLoan_of_phaseA_ok (investPhaseA_ok h0 hfl hst hres)]
  rw [investPhaseB_overfund hover2]
  constructor
  · dsimp only
    rw [hTeq]
  · dsimp only
    exact hRi

/-- Witness for C1: the concrete store satisfies the invariant, it is kept
through a concrete pair of calls, and a 1500 contribution against principal
1000 is rejected with OverFunding. -/
theorem ledger_invariant_c1_witness :
    LedgerInv store1000 ∧
    LedgerInv (runInvests store1000 [investCall "a@x" 400, investCall "b@x" 600]) ∧
    (investInLoan store1000 (investCall "a@x" 1500)).result
        = .error (.OverFunding (getTotalInvested store1000 "L") 1500 loan1000.principal) := by
  have hinv : LedgerInv store1000 := by
    constructor
    · simp [LoanIdsNodup, store1000]
    · intro l hl
      simp [store1000] at hl
      subst hl
      norm_num [getTotalInvested, sumForLoan, store1000, loan1000]
  refine ⟨hinv, (ledger_invariant_c1 store1000 hinv).1 _, ?_⟩
  have hamt : (0:ℚ) < (investCall "a@x" 1500).amount := by norm_num [investCall]
  have hres : (resolveInvestor store1000 "" "N" "a@x").result
      = .ok ⟨genId 0, "N", "a@x"⟩ := rfl
  have hover : getTotalInvested store1000 (investCall "a@x" 1500).loanID
      + (investCall "a@x" 1500).amount
      > (⟨loan1000, none, [], none⟩ : LoanAgg).loan.principal := by
    norm_num [investCall, getTotalInvested, sumForLoan, store1000, loan1000]
  exact ((ledger_invariant_c1 store1000 hinv).2 (investCall "a@x" 1500)
    ⟨loan1000, none, [], none⟩ ⟨genId 0, "N", "a@x"⟩ rfl rfl hamt hres hover).1

/-! ### Claim C3 -/

/-- C3: when InvestInLoan records a contribution on an approved loan (the
guard admits it, the call succeeds and appends exactly one Investment row with
the contributed amount), the persisted loan state becomes invested exactly
when the previous total plus the contribution equals the principal, and stays
approved when the new total is strictly below it — equality is the only
promotion trigger. On the concrete principal-1000 loan, contributions of 400
then 600 leave the loan invested after the second call, while 400 then 700
fail the second call with OverFunding, leaving the total at 400 and the state
approved. -/
theorem promotion_c3 :
    (∀ σ c agg invr, getLoanByID σ c.loanID = some agg → agg.loan.state = .approved →
      0 < c.amount →
      (resolveInvestor σ c.investorID c.investorName c.investorEmail).result = .ok invr →
      getTotalInvested σ c.loanID + c.amount ≤ agg.loan.principal →
      ((investInLoan σ c).result.isOk = true ∧
       (∃ row, (investInLoan σ c).store.investments = σ.investments ++ [row] ∧
         row.amount = c.amount ∧ row.loanID = c.loanID) ∧
       loanState (investInLoan σ c).store c.loanID
          = some (if getTotalInvested σ c.loanID + c.amount = agg.loan.principal
              then .invested else .approved))) ∧
    loanState (runInvests store1000 [investCall "a@x" 400, investCall "b@x" 600]) "L"
        = some .invested ∧
    (investInLoan (investInLoan store1000 (investCall "a@x" 400)).store
        (investCall "b@x" 700)).result
      = .error (.OverFunding 400 700 1000) ∧
    getTotalInvested (investInLoan (investInLoan store1000 (investCall "a@x" 400)).store
        (investCall "b@x" 700)).store "L" = 400 ∧
    loanState (investInLoan (investInLoan store1000 (investCall "a@x" 400)).store
        (investCall "b@x" 700)).store "L" = some .approved := by
  refine ⟨?_, ?_, ?_, ?_, ?_⟩
  · intro σ c agg invr hfl hst hamt hres hle
    have h0 : ¬ c.amount ≤ 0 := not_le.mpr hamt
    have hids : agg.loan.id = c.loanID := (getLoanByID_elim hfl).2
    have hflσ : findLoan σ c.loanID = some agg.loan := (getLoanByID_elim hfl).1
    obtain ⟨hRl, hRi, -, -⟩ :=
      resolveInvestor_frame σ c.investorID c.investorName c.investorEmail
    have hTeq : getTotalInvested
          (resolveInvestor σ c.investorID c.investorName c.investorEmail).store agg.loan.id
        = getTotalInvested σ c.loanID := by
      unfold getTotalInvested
      rw [hRi, hids]
    have hflρ : findLoan
          (resolveInvestor σ c.investorID c.investorName c.investorEmail).store c.loanID
        = some agg.loan := by
      unfold findLoan
      rw [hRl]
      exact hflσ
    rw [investInLoan_of_phaseA_ok (investPhaseA_ok h0 hfl hst hres)]
    by_cases heq : getTotalInvested σ c.loanID + c.amount = agg.loan.principal
    · have heq2 : getTotalInvested
            (resolveInvestor σ c.investorID c.investorName c.investorEmail).store agg.loan.id
          + c.amount = agg.loan.principal := by
        rw [hTeq]
        exact heq
      rw [investPhaseB_full heq2]
      refine ⟨rfl, ?_, ?_⟩
      · refine ⟨mkRow (resolveInvestor σ c.investorID c.investorName c.investorEmail).store
          agg invr c.amount, ?_, rfl, hids⟩
        show ((resolveInvestor σ c.investorID c.investorName c.investorEmail).store).investments
            ++ _ = σ.investments ++ _
        rw [hRi]
      · have hflρ2 : findLoan
            (insertRow (resolveInvestor σ c.investorID c.investorName c.investorEmail).store
              (mkRow (resolveInvestor σ c.investorID c.investorName c.investorEmail).store
                agg invr c.amount)) c.loanID = some agg.loan := hflρ
        unfold loanState
        simp only [findLoan_updateLoan_self hflρ2 (promoteLoan agg.loan) rfl, if_pos heq]
        rfl
    · have hle2 : getTotalInvested
            (resolveInvestor σ c.investorID c.investorName c.investorEmail).store agg.loan.id
          + c.amount ≤ agg.loan.principal := by
        rw [hTeq]
        exact hle
      have hne2 : getTotalInvested
            (resolveInvestor σ c.investorID c.investorName c.investorEmail).store agg.loan.id
          + c.amount ≠ agg.loan.principal := by
        rw [hTeq]
        exact heq
      rw [investPhaseB_below hle2 hne2]
      refine ⟨rfl, ?_, ?_⟩
      · refine ⟨mkRow (resolveInvestor σ c.investorID c.investorName c.investorEmail).store
          agg invr c.amount, ?_, rfl, hids⟩
        show ((resolveInvestor σ c.investorID c.investorName c.investorEmail).store).investments
            ++ _ = σ.investments ++ _
        rw [hRi]
      · unfold loanState
        rw [if_neg heq]
        show (findLoan
            (resolveInvestor σ c.investorID c.investorName c.investorEmail).store
            c.loanID).map Loan.state = some LoanState.approved
        rw [hflρ]
        simp [hst]
  · simp [runInvests, investInLoan, investPhaseA, investPhaseB, resolveInvestor, getLoanByID,
      findLoan, loanApproval, loanInvestments, loanDisbursement, getTotalInvested, sumForLoan,
      findInvestorByEmail, getInvestorByID, updateLoan, store1000, loan1000, investCall,
      loanState]
    try norm_num
    try simp [investInLoan, investPhaseA, investPhaseB, resolveInvestor, getLoanByID,
      findLoan, loanApproval, loanInvestments, loanDisbursement, getTotalInvested, sumForLoan,
      findInvestorByEmail, getInvestorByID, updateLoan, loanState]
    try norm_num
    try simp [loanState, findLoan, updateLoan]
  · simp [investInLoan, investPhaseA, investPhaseB, resolveInvestor, getLoanByID,
      findLoan, loanApproval, loanInvestments, loanDisbursement, getTotalInvested, sumForLoan,
      findInvestorByEmail, getInvestorByID, updateLoan, store1000, loan1000, investCall,
      loanState]
    try norm_num
    try simp [investInLoan, investPhaseA, investPhaseB, resolveInvestor, getLoanByID,
      findLoan, loanApproval, loanInvestments, loanDisbursement, getTotalInvested, sumForLoan,
      findInvestorByEmail, getInvestorByID, updateLoan, loanState]
    try norm_num
  · simp [investInLoan, investPhaseA, investPhaseB, resolveInvestor, getLoanByID,
      findLoan, loanApproval, loanInvestments, loanDisbursement, getTotalInvested, sumForLoan,
      findInvestorByEmail, getInvestorByID, updateLoan, store1000, loan1000, investCall,
      loanState]
    try norm_num
    try simp [investInLoan, investPhaseA, investPhaseB, resolveInvestor, getLoanByID,
      findLoan, loanApproval, loanInvestments, loanDisbursement, getTotalInvested, sumForLoan,
      findInvestorByEmail, getInvestorByID, updateLoan, loanState]
    try norm_num
  · simp [investInLoan, investPhaseA, investPhaseB, resolveInvestor, getLoanByID,
      findLoan, loanApproval, loanInvestments, loanDisbursement, getTotalInvested, sumForLoan,
      findInvestorByEmail, getInvestorByID, updateLoan, store1000, loan1000, investCall,
      loanState]
    try norm_num
    try simp [investInLoan, investPhaseA, investPhaseB, resolveInvestor, getLoanByID,
      findLoan, loanApproval, loanInvestments, loanDisbursement, getTotalInvested, sumForLoan,
      findInvestorByEmail, getInvestorByID, updateLoan, loanState]
    try norm_num
    try simp [loanState, findLoan, updateLoan]

/-- Witness for C3: the first 400 contribution on the concrete store is
recorded and the loan stays approved, since 400 is strictly below 1000. -/
theorem promotion_c3_witness :
    getTotalInvested store1000 "L" + (400:ℚ) ≤ loan1000.principal ∧
    ((investInLoan store1000 (investCall "a@x" 400)).result.isOk = true ∧
     (∃ row, (investInLoan store1000 (investCall "a@x" 400)).store.investments
         = store1000.investments ++ [row] ∧ row.amount = 400 ∧ row.loanID = "L") ∧
     loanState (investInLoan store1000 (investCall "a@x" 400)).store "L"
        = some (if getTotalInvested store1000 "L" + (400:ℚ) = loan1000.principal
            then .invested else .approved)) := by
  have hle : getTotalInvested store1000 (investCall "a@x" 400).loanID
      + (investCall "a@x" 400).amount
      ≤ (⟨loan1000, none, [], none⟩ : LoanAgg).loan.principal := by
    norm_num [investCall, getTotalInvested, sumForLoan, store1000, loan1000]
  have hamt : (0:ℚ) < (investCall "a@x" 400).amount := by norm_num [investCall]
  have hres : (resolveInvestor store1000 "" "N" "a@x").result
      = .ok ⟨genId 0, "N", "a@x"⟩ := rfl
  exact ⟨hle, promotion_c3.1 store1000 (investCall "a@x" 400) ⟨loan1000, none, [], none⟩
    ⟨genId 0, "N", "a@x"⟩ rfl rfl hamt hres hle⟩

/-! ### Claim C7 -/

/-- C7 fails as stated: after a successful approval the loan state is
approved, so the second ApproveLoan call is rejected by the state check with
InvalidState, never reaching the AlreadyApproved branch; likewise the second
DisburseLoan call after a successful disbursement fails with InvalidState,
not AlreadyDisbursed. -/
theorem twice_c7_counterexample :
    (approveLoan (approveLoan storeP "L" "p" "e1").2 "L" "p" "e1").1
        = .error (.InvalidState .approved .proposed) ∧
    (approveLoan (approveLoan storeP "L" "p" "e1").2 "L" "p" "e1").1
        ≠ .error .AlreadyApproved ∧
    (disburseLoan (disburseLoan storeI "L" "a" "e2").2 "L" "a" "e2").1
        = .error (.InvalidState .disbursed .invested) ∧
    (disburseLoan (disburseLoan storeI "L" "a" "e2").2 "L" "a" "e2").1
        ≠ .error .AlreadyDisbursed := by
  refine ⟨?_, ?_, ?_, ?_⟩ <;>
    simp [approveLoan, approveLoanF, disburseLoan, FailSpec.allOk, getLoanByID, findLoan,
      loanApproval, loanInvestments, loanDisbursement, updateLoan, storeP, loanP, storeI,
      loanI]

/-- C7 amended: each of ApproveLoan and DisburseLoan succeeds at most once on
a given loan — the second call fails and leaves the store unchanged — but the
second failure is InvalidState (current approved, required proposed, resp.
current disbursed, required invested) rather than AlreadyApproved or
AlreadyDisbursed, because the state check runs before the duplicate-record
check. -/
theorem twice_c7_amended :
    (∀ σ lid purl emp agg, getLoanByID σ lid = some agg → agg.loan.state = .proposed →
      agg.approval = none →
      (approveLoan σ lid purl emp).1.isOk = true ∧
      (approveLoan (approveLoan σ lid purl emp).2 lid purl emp).1
          = .error (.InvalidState .approved .proposed) ∧
      (approveLoan (approveLoan σ lid purl emp).2 lid purl emp).2
          = (approveLoan σ lid purl emp).2) ∧
    (∀ σ lid aurl emp agg, getLoanByID σ lid = some agg → agg.loan.state = .invested →
      agg.disbursement = none →
      (disburseLoan σ lid aurl emp).1.isOk = true ∧
      (disburseLoan (disburseLoan σ lid aurl emp).2 lid aurl emp).1
          = .error (.InvalidState .disbursed .invested) ∧
      (disburseLoan (disburseLoan σ lid aurl emp).2 lid aurl emp).2
          = (disburseLoan σ lid aurl emp).2) := by
  constructor
  · intro σ lid purl emp agg hfl hst hap
    have hok := @approveLoanF_ok σ lid agg FailSpec.allOk purl emp hfl hst hap rfl rfl
    have hfl0 : findLoan (insertApproval σ (mkApproval σ agg purl emp)) lid
        = some agg.loan := (getLoanByID_elim hfl).1
    have hfl1 := findLoan_updateLoan_self hfl0 (approveRow agg.loan) rfl
    have hfl2 : getLoanByID
        (updateLoan (insertApproval σ (mkApproval σ agg purl emp)) (approveRow agg.loan)) lid
        = some ⟨approveRow agg.loan,
            loanApproval (updateLoan (insertApproval σ (mkApproval σ agg purl emp))
              (approveRow agg.loan)) (approveRow agg.loan).id,
            loanInvestments (updateLoan (insertApproval σ (mkApproval σ agg purl emp))
              (approveRow agg.loan)) (approveRow agg.loan).id,
            loanDisbursement (updateLoan (insertApproval σ (mkApproval σ agg purl emp))
              (approveRow agg.loan)) (approveRow agg.loan).id⟩ := by
      unfold getLoanByID
      rw [hfl1]
      rfl
    have hbad := @approveLoanF_badstate FailSpec.allOk _ _ _ purl emp hfl2
      (by simp [approveRow])
    unfold approveLoan
    simp only [hok]
    refine ⟨rfl, ?_, ?_⟩
    · simp only [hbad]
      try rfl
    · simp only [hbad]
      try rfl
  · intro σ lid aurl emp agg hfl hst hd
    have hok := disburseLoan_ok aurl emp hfl hst hd
    have hfl0 : findLoan (insertDisbursement σ (mkDisbursement σ agg aurl emp)) lid
        = some agg.loan := (getLoanByID_elim hfl).1
    have hfl1 := findLoan_updateLoan_self hfl0 (disburseRow agg.loan) rfl
    have hfl2 : getLoanByID
        (updateLoan (insertDisbursement σ (mkDisbursement σ agg aurl emp))
          (disburseRow agg.loan)) lid
        = some ⟨disburseRow agg.loan,
            loanApproval (updateLoan (insertDisbursement σ (mkDisbursement σ agg aurl emp))
              (disburseRow agg.loan)) (disburseRow agg.loan).id,
            loanInvestments (updateLoan (insertDisbursement σ (mkDisbursement σ agg aurl emp))
              (disburseRow agg.loan)) (disburseRow agg.loan).id,
            loanDisbursement (updateLoan (insertDisbursement σ (mkDisbursement σ agg aurl emp))
              (disburseRow agg.loan)) (disburseRow agg.loan).id⟩ := by
      unfold getLoanByID
      rw [hfl1]
      rfl
    have hbad := disburseLoan_badstate aurl emp hfl2 (by simp [disburseRow])
    simp only [hok]
    refine ⟨rfl, ?_, ?_⟩
    · simp only [hbad]
      try rfl
    · simp only [hbad]
      try rfl

/-- Witness for the amended C7: the double approval and double disbursement on
the concrete stores. -/
theorem twice_c7_amended_witness :
    getLoanByID storeP "L" = some ⟨loanP, none, [], none⟩ ∧
    (approveLoan storeP "L" "p" "e1").1.isOk = true ∧
    (approveLoan (approveLoan storeP "L" "p" "e1").2 "L" "p" "e1").1
        = .error (.InvalidState .approved .proposed) ∧
    (disburseLoan (disburseLoan storeI "L" "a" "e2").2 "L" "a" "e2").1
        = .error (.InvalidState .disbursed .invested) := by
  have h1 := (twice_c7_amended.1 storeP "L" "p" "e1" ⟨loanP, none, [], none⟩ rfl rfl rfl)
  have h2 := (twice_c7_amended.2 storeI "L" "a" "e2" ⟨loanI, none, [], none⟩ rfl rfl rfl)
  exact ⟨rfl, h1.1, h1.2.1, h2.2.1⟩

/-! ### Claim C5 -/

/-- C5 fails as stated: ApproveLoan issues CreateApproval and UpdateLoan as
two separate writes with no transaction, so when the loan update fails after
the approval insert succeeded — a storage failure the code only propagates —
the store keeps a persisted Approval row while the loan is still proposed. -/
theorem approve_atomic_c5_counterexample :
    (approveLoanF ⟨true, false⟩ storeP "L" "p" "e1").1 = .error .PersistenceFailure ∧
    loanApproval (approveLoanF ⟨true, false⟩ storeP "L" "p" "e1").2 "L"
        = some ⟨genId 0, "L", "p", "e1"⟩ ∧
    loanState (approveLoanF ⟨true, false⟩ storeP "L" "p" "e1").2 "L" = some .proposed := by
  have hfl : getLoanByID storeP "L" = some ⟨loanP, none, [], none⟩ := rfl
  have h := @approveLoanF_updateFail storeP "L" ⟨loanP, none, [], none⟩ ⟨true, false⟩
    "p" "e1" hfl rfl rfl rfl rfl
  rw [h]
  refine ⟨rfl, ?_, ?_⟩ <;>
    simp [insertApproval, mkApproval, loanApproval, loanState, findLoan, storeP, loanP]

/-- C5 amended: when both persistence writes succeed, ApproveLoan persists the
Approval row and the transition to approved together, returning the loan with
the approval attached; but the two writes are not one atomic unit, so when
the loan update fails after the approval insert succeeded, the call returns
an error while the Approval row stays persisted and the loan stays proposed. -/
theorem approve_atomic_c5_amended (σ : Store) (lid purl emp : String) (agg : LoanAgg)
    (hfl : getLoanByID σ lid = some agg) (hst : agg.loan.state = .proposed)
    (hap : agg.approval = none) :
    ((approveLoan σ lid purl emp).1
        = .ok { agg with loan := approveRow agg.loan, approval := some (mkApproval σ agg purl emp) } ∧
      loanState (approveLoan σ lid purl emp).2 lid = some .approved ∧
      (approveLoan σ lid purl emp).2.approvals
          = σ.approvals ++ [mkApproval σ agg purl emp]) ∧
    ((approveLoanF ⟨true, false⟩ σ lid purl emp).1 = .error .PersistenceFailure ∧
      loanState (approveLoanF ⟨true, false⟩ σ lid purl emp).2 lid = some .proposed ∧
      (approveLoanF ⟨true, false⟩ σ lid purl emp).2.approvals
          = σ.approvals ++ [mkApproval σ agg purl emp]) := by
  have hok := @approveLoanF_ok σ lid agg FailSpec.allOk purl emp hfl hst hap rfl rfl
  have hupf := @approveLoanF_updateFail σ lid agg ⟨true, false⟩ purl emp hfl hst hap rfl rfl
  have hfl0 : findLoan (insertApproval σ (mkApproval σ agg purl emp)) lid
      = some agg.loan := (getLoanByID_elim hfl).1
  have hfl1 := findLoan_updateLoan_self hfl0 (approveRow agg.loan) rfl
  constructor
  · unfold approveLoan
    rw [hok]
    refine ⟨rfl, ?_, ?_⟩
    · unfold loanState
      show (findLoan (updateLoan (insertApproval σ (mkApproval σ agg purl emp))
          (approveRow agg.loan)) lid).map Loan.state = some .approved
      rw [hfl1]
      rfl
    · show (updateLoan (insertApproval σ (mkApproval σ agg purl emp))
          (approveRow agg.loan)).approvals = _
      rw [updateLoan_approvals]
      rfl
  · rw [hupf]
    refine ⟨rfl, ?_, rfl⟩
    unfold loanState
    show (findLoan (insertApproval σ (mkApproval σ agg purl emp)) lid).map Loan.state
        = some .proposed
    rw [hfl0]
    simp [hst]

/-- Witness for the amended C5 on the concrete proposed loan. -/
theorem approve_atomic_c5_amended_witness :
    getLoanByID storeP "L" = some ⟨loanP, none, [], none⟩ ∧
    loanState (approveLoan storeP "L" "p" "e1").2 "L" = some .approved ∧
    loanState (approveLoanF ⟨true, false⟩ storeP "L" "p" "e1").2 "L" = some .proposed := by
  have h := approve_atomic_c5_amended storeP "L" "p" "e1" ⟨loanP, none, [], none⟩ rfl rfl rfl
  exact ⟨rfl, h.1.2.1, h.2.2.1⟩

/-! ### Determinism of resolution by email -/

theorem resolveInvestor_again (σ : Store) (n1 n2 : String) {e : String} (he : e ≠ "") :
    ∃ inv, (resolveInvestor σ "" n1 e).result = .ok inv ∧
      ∀ τ : Store, τ.investors = (resolveInvestor σ "" n1 e).store.investors →
        (resolveInvestor τ "" n2 e).result = .ok inv := by
  cases h : findInvestorByEmail σ e with
  | some inv =>
    refine ⟨inv, by rw [resolveInvestor_found n1 he h], ?_⟩
    intro τ hτ
    rw [resolveInvestor_found n1 he h] at hτ
    have hτfind : findInvestorByEmail τ e = some inv := by
      unfold findInvestorByEmail at h ⊢
      rw [hτ]
      exact h
    rw [resolveInvestor_found n2 he hτfind]
  | none =>
    refine ⟨⟨genId σ.nextId, n1, e⟩, by rw [resolveInvestor_create n1 (Or.inr h)], ?_⟩
    intro τ hτ
    rw [resolveInvestor_create n1 (Or.inr h)] at hτ
    have hτfind : findInvestorByEmail τ e = some ⟨genId σ.nextId, n1, e⟩ := by
      unfold findInvestorByEmail
      rw [hτ]
      show (σ.investors ++ [(⟨genId σ.nextId, n1, e⟩ : Investor)]).find?
            (fun i : Investor => i.email == e)
          = some (⟨genId σ.nextId, n1, e⟩ : Investor)
      have h0 : σ.investors.find? (fun i => i.email == e) = none := h
      rw [List.find?_append, h0]
      simp
    rw [resolveInvestor_found n2 he hτfind]

theorem investInLoan_success {σ : Store} {c : InvestCall} {agg : LoanAgg} {inv : Investor}
    (hamt : 0 < c.amount) (hfl : getLoanByID σ c.loanID = some agg)
    (hst : agg.loan.state = .approved)
    (hres : (resolveInvestor σ c.investorID c.investorName c.investorEmail).result = .ok inv)
    (hle : getTotalInvested σ c.loanID + c.amount ≤ agg.loan.principal) :
    (investInLoan σ c).store.investments
        = σ.investments
          ++ [mkRow (resolveInvestor σ c.investorID c.investorName c.investorEmail).store
                agg inv c.amount] ∧
    (investInLoan σ c).store.investors
        = (resolveInvestor σ c.investorID c.investorName c.investorEmail).store.investors := by
  have h0 : ¬ c.amount ≤ 0 := not_le.mpr hamt
  have hids : agg.loan.id = c.loanID := (getLoanByID_elim hfl).2
  obtain ⟨hRl, hRi, -, -⟩ :=
    resolveInvestor_frame σ c.investorID c.investorName c.investorEmail
  have hTeq : getTotalInvested
        (resolveInvestor σ c.investorID c.investorName c.investorEmail).store agg.loan.id
      = getTotalInvested σ c.loanID := by
    unfold getTotalInvested
    rw [hRi, hids]
  have hle2 : getTotalInvested
        (resolveInvestor σ c.investorID c.investorName c.investorEmail).store agg.loan.id
      + c.amount ≤ agg.loan.principal := by
    rw [hTeq]
    exact hle
  rw [investInLoan_of_phaseA_ok (investPhaseA_ok h0 hfl hst hres)]
  by_cases heq : getTotalInvested
        (resolveInvestor σ c.investorID c.investorName c.investorEmail).store agg.loan.id
      + c.amount = agg.loan.principal
  · rw [investPhaseB_full heq]
    constructor
    · show ((resolveInvestor σ c.investorID c.investorName c.investorEmail).store).investments
          ++ _ = σ.investments ++ _
      rw [hRi]
    · rfl
  · rw [investPhaseB_below hle2 heq]
    constructor
    · show ((resolveInvestor σ c.investorID c.investorName c.investorEmail).store).investments
          ++ _ = σ.investments ++ _
      rw [hRi]
    · rfl

/-! ### Claim C8 -/

/-- C8: in InvestInLoan, a supplied non-empty investor identity must already
exist — on an approved loan with a positive amount, a missing identity makes
the call fail with NotFound after only the loan lookup and the investor
lookup, writing nothing — and without an identity the investor is resolved by
the contact email: two successful calls with the same non-empty email and no
identity append investment rows carrying the same investor identifier, the
second call reusing the investor record the first call found or created. -/
theorem investor_resolution_c8 :
    (∀ σ c agg, c.investorID ≠ "" → getInvestorByID σ c.investorID = none →
      0 < c.amount → getLoanByID σ c.loanID = some agg → agg.loan.state = .approved →
      investInLoan σ c = ⟨.error .NotFound, σ, [.getLoanByID, .getInvestorByID]⟩) ∧
    (∀ σ c1 c2 agg1 agg2,
      c1.investorID = "" → c2.investorID = "" → c1.investorEmail ≠ "" →
      c2.investorEmail = c1.investorEmail →
      0 < c1.amount → 0 < c2.amount →
      getLoanByID σ c1.loanID = some agg1 → agg1.loan.state = .approved →
      getTotalInvested σ c1.loanID + c1.amount ≤ agg1.loan.principal →
      getLoanByID (investInLoan σ c1).store c2.loanID = some agg2 →
      agg2.loan.state = .approved →
      getTotalInvested (investInLoan σ c1).store c2.loanID + c2.amount
          ≤ agg2.loan.principal →
      ∃ (inv : Investor) (row1 row2 : Investment),
        (investInLoan σ c1).store.investments = σ.investments ++ [row1] ∧
        (investInLoan (investInLoan σ c1).store c2).store.investments
            = (investInLoan σ c1).store.investments ++ [row2] ∧
        row1.investorID = inv.id ∧ row2.investorID = inv.id) := by
  constructor
  · intro σ c agg hid hmiss hamt hfl hst
    have h0 : ¬ c.amount ≤ 0 := not_le.mpr hamt
    have hres : (resolveInvestor σ c.investorID c.investorName c.investorEmail)
        = ⟨.error .NotFound, σ, [.getInvestorByID]⟩ :=
      resolveInvestor_by_id_missing c.investorName c.investorEmail hid hmiss
    have hresr : (resolveInvestor σ c.investorID c.investorName c.investorEmail).result
        = .error .NotFound := by rw [hres]
    rw [investInLoan_of_phaseA_error (investPhaseA_resolve_err h0 hfl hst hresr)]
    rw [hres]
  · intro σ c1 c2 agg1 agg2 hid1 hid2 he1 he21 hamt1 hamt2 hfl1 hst1 hle1 hfl2 hst2 hle2
    obtain ⟨inv, hres1, hagain⟩ :=
      resolveInvestor_again σ c1.investorName c2.investorName he1
    have hres1c : (resolveInvestor σ c1.investorID c1.investorName c1.investorEmail).result
        = .ok inv := by
      rw [hid1]
      exact hres1
    have hsucc1 := investInLoan_success hamt1 hfl1 hst1 hres1c hle1
    have h2 := hsucc1.2
    rw [hid1] at h2
    have hres2 : (resolveInvestor (investInLoan σ c1).store "" c2.investorName
        c1.investorEmail).result = .ok inv := hagain _ h2
    have hres2c : (resolveInvestor (investInLoan σ c1).store c2.investorID c2.investorName
        c2.investorEmail).result = .ok inv := by
      rw [hid2, he21]
      exact hres2
    have hsucc2 := investInLoan_success hamt2 hfl2 hst2 hres2c hle2
    exact ⟨inv, _, _, hsucc1.1, hsucc2.1, rfl, rfl⟩

/-- Witness for C8: a missing supplied identity fails with NotFound on the
concrete store, and two 300 contributions with the same email yield rows with
the same investor identifier. -/
theorem investor_resolution_c8_witness :
    getInvestorByID store1000 "X" = none ∧
    investInLoan store1000 ⟨"L", "X", "N", "n@x", 100⟩
        = ⟨.error .NotFound, store1000, [.getLoanByID, .getInvestorByID]⟩ ∧
    (∃ (inv : Investor) (row1 row2 : Investment),
      (investInLoan store1000 (investCall "a@x" 300)).store.investments
          = store1000.investments ++ [row1] ∧
      (investInLoan (investInLoan store1000 (investCall "a@x" 300)).store
          (investCall "a@x" 300)).store.investments
          = (investInLoan store1000 (investCall "a@x" 300)).store.investments ++ [row2] ∧
      row1.investorID = inv.id ∧ row2.investorID = inv.id) := by
  have hamt100 : (0:ℚ) < (⟨"L", "X", "N", "n@x", 100⟩ : InvestCall).amount := by norm_num
  have hpart1 := investor_resolution_c8.1 store1000 ⟨"L", "X", "N", "n@x", 100⟩
    ⟨loan1000, none, [], none⟩ (by decide) rfl hamt100 rfl rfl
  have hσ1 : (investInLoan store1000 (investCall "a@x" 300)).store
      = (⟨[loan1000], [], [⟨genId 0, "N", "a@x"⟩], [⟨genId 1, "L", genId 0, 300⟩], [], 2⟩
          : Store) := by
    simp [investInLoan, investPhaseA, investPhaseB, resolveInvestor, getLoanByID, findLoan,
      loanApproval, loanInvestments, loanDisbursement, getTotalInvested, sumForLoan,
      findInvestorByEmail, getInvestorByID, updateLoan, store1000, loan1000, investCall]
    try norm_num
    try simp [investInLoan, investPhaseA, investPhaseB, resolveInvestor, getLoanByID,
      findLoan, loanApproval, loanInvestments, loanDisbursement, getTotalInvested, sumForLoan,
      findInvestorByEmail, getInvestorByID, updateLoan]
    try norm_num
  have hamt300 : (0:ℚ) < (investCall "a@x" 300).amount := by norm_num [investCall]
  have hle1 : getTotalInvested store1000 (investCall "a@x" 300).loanID
      + (investCall "a@x" 300).amount
      ≤ (⟨loan1000, none, [], none⟩ : LoanAgg).loan.principal := by
    norm_num [investCall, getTotalInvested, sumForLoan, store1000, loan1000]
  have hfl2 : getLoanByID (investInLoan store1000 (investCall "a@x" 300)).store
      (investCall "a@x" 300).loanID
      = some ⟨loan1000, none, [⟨genId 1, "L", genId 0, 300⟩], none⟩ := by
    rw [hσ1]
    rfl
  have hle2 : getTotalInvested (investInLoan store1000 (investCall "a@x" 300)).store
      (investCall "a@x" 300).loanID + (investCall "a@x" 300).amount
      ≤ (⟨loan1000, none, [⟨genId 1, "L", genId 0, 300⟩], none⟩ : LoanAgg).loan.principal := by
    rw [hσ1]
    norm_num [investCall, getTotalInvested, sumForLoan, loan1000]
  have hpart2 := investor_resolution_c8.2 store1000 (investCall "a@x" 300)
    (investCall "a@x" 300) ⟨loan1000, none, [], none⟩
    ⟨loan1000, none, [⟨genId 1, "L", genId 0, 300⟩], none⟩
    rfl rfl (by decide) rfl hamt300 hamt300 rfl rfl hle1 hfl2 rfl hle2
  exact ⟨rfl, hpart1, hpart2⟩

/-! ### Claim C2 -/

/-- C2 is a guarantee the source does not provide: InvestInLoan takes no
per-loan lock and opens no transaction, so the two phases of two calls can
interleave as read1, read2, write1, write2. In that schedule both 600
contributions against the principal-1000 loan observe total 0, both pass the
over-funding guard and both commit, leaving the persisted total at 1200,
strictly above the principal. -/
theorem concurrent_overfund_c2_bug :
    (interleavedInvest store1000 (investCall "a@x" 600) (investCall "b@x" 600)).1.isOk
        = true ∧
    (interleavedInvest store1000 (investCall "a@x" 600) (investCall "b@x" 600)).2.1.isOk
        = true ∧
    getTotalInvested
        (interleavedInvest store1000 (investCall "a@x" 600) (investCall "b@x" 600)).2.2 "L"
        = 1200 ∧
    loan1000.principal = 1000 ∧
    ¬ getTotalInvested
        (interleavedInvest store1000 (investCall "a@x" 600) (investCall "b@x" 600)).2.2 "L"
      ≤ loan1000.principal := by
  refine ⟨?_, ?_, ?_, rfl, ?_⟩ <;>
  · simp [interleavedInvest, investInLoan, investPhaseA, investPhaseB, resolveInvestor,
      getLoanByID, findLoan, loanApproval, loanInvestments, loanDisbursement,
      getTotalInvested, sumForLoan, findInvestorByEmail, getInvestorByID, updateLoan,
      store1000, loan1000, investCall, Except.isOk, Except.toBool]
    try norm_num
    try simp [interleavedInvest, investInLoan, investPhaseA, investPhaseB, resolveInvestor,
      getLoanByID, findLoan, loanApproval, loanInvestments, loanDisbursement,
      getTotalInvested, sumForLoan, findInvestorByEmail, getInvestorByID, updateLoan,
      store1000, loan1000, investCall]
    try norm_num
    try simp [getTotalInvested, sumForLoan]
    try norm_num
